import Mathlib

/-!
Verification of the connection core (`AbstractBroadcastConnection`) of the
open-collaboration-server repository, shallowly embedded as a deterministic
state machine.  Each connection operation of the source is translated to a
Lean function on an explicit connection state; the asynchronous behaviour
(the per-connection serialisation of handler invocations guaranteed by the
runtime) is expressed as a list of events folded over the state.

The modules `Encryption`, `Encoding`, the `Emitter` (utils/event), the
`Deferred` promise (utils/promise) and the `setTimeout` timers are imported
by the source but their code is not part of this repository; their behaviour
is modelled from the spec where noted.
-/

namespace OCP

/-- Kinds of wire messages, mirroring the message variants dispatched by
`AbstractBroadcastConnection.handleMessage`. -/
inductive MsgKind
  | request
  | response
  | responseError
  | notificationMsg
  | broadcast
  | errorMsg
  deriving DecidableEq, Repr

/-- A decoded message as seen by `handleMessage` / produced by `write`.
`recipients` are the public-key fingerprints for which the symmetric key
was sealed (one sealed copy per recipient); `origin` identifies the
sender's key.  Fields not used by a given kind are defaulted. -/
structure WireMsg where
  kind : MsgKind
  id : Nat
  method : String
  content : String
  origin : String
  recipients : List String
  deriving DecidableEq, Repr

/-- A registered message handler.  Handlers of the source are arbitrary
(possibly async) functions of origin and params; for the dispatch logic only
whether the handler returns a result or throws matters, so a handler is
modelled by its outcome. -/
inductive HandlerSpec
  | ok (result : String)
  | err (msg : String)
  deriving DecidableEq, Repr

/-- Errors with which an outbound request's deferred can settle. -/
inductive RpcErr
  | timeout
  | remote (msg : String)
  | cryptoFail
  deriving DecidableEq, Repr

deriving instance DecidableEq for Except

/-- The settled value of one outbound request's deferred. -/
abbrev Outcome := Except RpcErr String

/-- Operations suspended on `await this._ready.promise`: the three send
operations and the `Response` write of an inbound request whose handler
already ran.  They resume, in order, when `ready()` resolves the barrier. -/
inductive Parked
  | requestSend (method target : String)
  | notifySend (method target : String)
  | broadcastSend (method : String)
  | responseWrite (id : Nat) (origin : String) (result : String)
  deriving DecidableEq, Repr

/-- Association-list lookup with decidable key equality. -/
def getKey {α β : Type} [DecidableEq α] : List (α × β) → α → Option β
  | [], _ => none
  | (k, v) :: rest, a => if k = a then some v else getKey rest a

/-- Association-list update, mirroring `Map.set` / keyed record update:
replaces the binding of the key when present, otherwise appends. -/
def setKey {α β : Type} [DecidableEq α] : List (α × β) → α → β → List (α × β)
  | [], a, b => [(a, b)]
  | (k, v) :: rest, a, b => if k = a then (a, b) :: rest else (k, v) :: setKey rest a b

/-- Association-list removal, mirroring `Map.delete`. -/
def delKey {α β : Type} [DecidableEq α] : List (α × β) → α → List (α × β)
  | [], _ => []
  | (k, v) :: rest, a => if k = a then delKey rest a else (k, v) :: delKey rest a

/-- A key cache (`encryptionKeyCache` / `decryptionKeyCache`): the set of
fingerprints holding a cached entry, in insertion order.  The cached values
(key wraps / unwrapped keys) do not influence control flow and are elided. -/
abbrev Cache := List String

/-- Insert a fingerprint into a cache unless already present. -/
def cacheInsert (c : Cache) (f : String) : Cache :=
  if f ∈ c then c else c ++ [f]

/-- Modelled from the spec: `Encryption.encrypt` (module not in the
repository sources).  For each recipient key the symmetric key is sealed
unless the wrap is already cached; a cache hit skips the asymmetric seal.
Returns the updated cache and the number of fresh asymmetric seal
operations performed. -/
def encryptFor (cache : Cache) (keys : List String) : Cache × Nat :=
  keys.foldl (fun acc k => if k ∈ acc.1 then acc else (acc.1 ++ [k], acc.2 + 1)) (cache, 0)

/-- Modelled from the spec: `Encryption.decrypt` (module not in the
repository sources).  Decryption succeeds iff a sealed key copy exists for
the receiver's own fingerprint; on success the unwrapped symmetric key is
cached under the sender's fingerprint.  Returns the updated cache, or
`none` on failure (`NoKeyForMe`). -/
def decryptMsg (cache : Cache) (selfKey : String) (m : WireMsg) : Option Cache :=
  if selfKey ∈ m.recipients then some (cacheInsert cache m.origin) else none

/-- The full observable state of one `AbstractBroadcastConnection`.
`outcomes` records the settlement of each issued request's deferred (a
deferred settles at most once, modelled from the spec's one-shot promise);
`wire` is the sequence of messages written to the transport; `parked` holds
continuations suspended on the ready barrier; `allocatedIds` is the history
of ids returned by `this.requestId++`.  `publicKeys` is the current result
of the abstract `getPublicKeys()` (room membership, maintained outside the
connection); `sealOps` counts asymmetric seal operations. -/
structure ConnState where
  messageHandlers : List (String × HandlerSpec)
  requestMap : List (Nat × Nat)
  outcomes : List (Nat × Outcome)
  requestId : Nat
  encryptionKeyCache : Cache
  decryptionKeyCache : Cache
  maxCacheSize : Nat
  publicKeys : List String
  selfKey : String
  ready : Bool
  parked : List Parked
  wire : List WireMsg
  sealOps : Nat
  onDisconnectActive : Bool
  onErrorActive : Bool
  disconnectFired : Nat
  errorsFired : List String
  transportDisposed : Bool
  now : Nat
  allocatedIds : List Nat
  deriving DecidableEq, Repr

/-- External events driving one connection: API calls made by the owner,
messages arriving from the transport, timer firings, clock advance and
room-membership changes. -/
inductive Event
  | onRequestReg (method : String) (h : HandlerSpec)
  | onNotifyReg (method : String) (h : HandlerSpec)
  | onBroadcastReg (method : String) (h : HandlerSpec)
  | sendRequestCall (method target : String)
  | sendNotifyCall (method target : String)
  | sendBroadcastCall (method : String)
  | readyCall
  | disposeCall
  | recv (m : WireMsg)
  | timerFire (id : Nat)
  | tick (dt : Nat)
  | setPeers (ps : List String)
  deriving DecidableEq, Repr

/-- Settle a deferred: the first settlement wins, later settlements of the
same request id have no effect (modelled from the spec's one-shot
completion semantics of `Deferred`). -/
def settleOutcome (o : List (Nat × Outcome)) (id : Nat) (v : Outcome) : List (Nat × Outcome) :=
  if (getKey o id).isSome then o else o ++ [(id, v)]

/-- `cleanupCaches` of the source: drops a cache in its entirety when its
size exceeds `getPublicKeysLength() + maxCacheSize`.  The two caches are
checked independently against the one `maxSize` computed up front. -/
def cleanupCaches (s : ConnState) : ConnState :=
  let maxSize := s.publicKeys.length + s.maxCacheSize
  { s with
    encryptionKeyCache := if s.encryptionKeyCache.length > maxSize then [] else s.encryptionKeyCache,
    decryptionKeyCache := if s.decryptionKeyCache.length > maxSize then [] else s.decryptionKeyCache }

/-- The body of `sendRequest` past the ready barrier: allocate
`this.requestId++`, store the relayed request with its 60 s timer, encrypt
for the target's key, write. -/
def sendRequestExec (s : ConnState) (method target : String) : ConnState :=
  let id := s.requestId
  let enc := encryptFor s.encryptionKeyCache [target]
  { s with
    requestId := s.requestId + 1,
    allocatedIds := s.allocatedIds ++ [id],
    requestMap := setKey s.requestMap id (s.now + 60000),
    encryptionKeyCache := enc.1,
    sealOps := s.sealOps + enc.2,
    wire := s.wire ++ [⟨MsgKind.request, id, method, method, "", [target]⟩] }

/-- The body of `sendNotification` past the ready barrier. -/
def sendNotifyExec (s : ConnState) (method target : String) : ConnState :=
  let enc := encryptFor s.encryptionKeyCache [target]
  { s with
    encryptionKeyCache := enc.1,
    sealOps := s.sealOps + enc.2,
    wire := s.wire ++ [⟨MsgKind.notificationMsg, 0, method, method, "", [target]⟩] }

/-- The body of `sendBroadcast` past the ready barrier: encrypt for the
full known-peer set, but skip the send entirely when the set is empty
(encryption requires at least one public key). -/
def sendBroadcastExec (s : ConnState) (method : String) : ConnState :=
  if s.publicKeys.length > 0 then
    let enc := encryptFor s.encryptionKeyCache s.publicKeys
    { s with
      encryptionKeyCache := enc.1,
      sealOps := s.sealOps + enc.2,
      wire := s.wire ++ [⟨MsgKind.broadcast, 0, method, method, "", s.publicKeys⟩] }
  else s

/-- The `Response` write of the request branch of `handleMessage`, past the
ready barrier: encrypt for the origin's key and write. -/
def responseWriteExec (s : ConnState) (id : Nat) (origin result : String) : ConnState :=
  let enc := encryptFor s.encryptionKeyCache [origin]
  { s with
    encryptionKeyCache := enc.1,
    sealOps := s.sealOps + enc.2,
    wire := s.wire ++ [⟨MsgKind.response, id, "", result, "", [origin]⟩] }

/-- The `ResponseError` write of the request branch's catch clause: encrypt
for the origin's key and write.  Note the source's catch clause does not
await the ready barrier. -/
def responseErrorWriteExec (s : ConnState) (id : Nat) (origin msg : String) : ConnState :=
  let enc := encryptFor s.encryptionKeyCache [origin]
  { s with
    encryptionKeyCache := enc.1,
    sealOps := s.sealOps + enc.2,
    wire := s.wire ++ [⟨MsgKind.responseError, id, "", msg, "", [origin]⟩] }

/-- Resume one parked continuation. -/
def execParked (s : ConnState) : Parked → ConnState
  | Parked.requestSend m t => sendRequestExec s m t
  | Parked.notifySend m t => sendNotifyExec s m t
  | Parked.broadcastSend m => sendBroadcastExec s m
  | Parked.responseWrite id o r => responseWriteExec s id o r

/-- `ready()`: resolve the barrier; all continuations awaiting it resume in
registration order. -/
def readyExec (s : ConnState) : ConnState :=
  s.parked.foldl execParked { s with ready := true, parked := [] }

/-- `dispose()` of the source: fire `onDisconnect`, dispose the emitters,
clear the handler registry, dispose the transport.  The request map is not
touched.  Emitter disposal is modelled from the spec: disposal clears the
subscribers, so a fire on a disposed emitter delivers nothing. -/
def disposeExec (s : ConnState) : ConnState :=
  { s with
    disconnectFired := if s.onDisconnectActive then s.disconnectFired + 1 else s.disconnectFired,
    onDisconnectActive := false,
    onErrorActive := false,
    messageHandlers := [],
    transportDisposed := true }

/-- The timer of the request-map entry `id` fires (the `setTimeout` of
`sendRequest`, due `60000` ms after the send): run the entry's `dispose`,
which deletes the id from the map, clears the timer and rejects the
deferred with the timeout error. -/
def timerFireExec (s : ConnState) (id : Nat) : ConnState :=
  match getKey s.requestMap id with
  | some expiry =>
      if expiry ≤ s.now then
        { s with
          requestMap := delKey s.requestMap id,
          outcomes := settleOutcome s.outcomes id (Except.error RpcErr.timeout) }
      else s
  | none => s

/-- `handleMessage` of the source: clean the caches, decode, then dispatch
on the message kind.  Responses settle the matching request's deferred (the
entry itself stays in the map); requests run the registered handler and
answer with `Response` (after the ready barrier) or `ResponseError`
(immediately); unknown methods are logged and dropped without a reply. -/
def handleMessage (s : ConnState) (m : WireMsg) : ConnState :=
  let s := cleanupCaches s
  match m.kind with
  | MsgKind.response =>
      let requested := (getKey s.requestMap m.id).isSome
      match decryptMsg s.decryptionKeyCache s.selfKey m with
      | some c =>
          let s := { s with decryptionKeyCache := c }
          if requested then { s with outcomes := settleOutcome s.outcomes m.id (Except.ok m.content) }
          else s
      | none =>
          if requested then { s with outcomes := settleOutcome s.outcomes m.id (Except.error RpcErr.cryptoFail) }
          else s
  | MsgKind.responseError =>
      let requested := (getKey s.requestMap m.id).isSome
      match decryptMsg s.decryptionKeyCache s.selfKey m with
      | some c =>
          let s := { s with decryptionKeyCache := c }
          if requested then { s with outcomes := settleOutcome s.outcomes m.id (Except.error (RpcErr.remote m.content)) }
          else s
      | none =>
          if requested then { s with outcomes := settleOutcome s.outcomes m.id (Except.error RpcErr.cryptoFail) }
          else s
  | MsgKind.request =>
      match decryptMsg s.decryptionKeyCache s.selfKey m with
      | none => s
      | some c =>
          let s := { s with decryptionKeyCache := c }
          match getKey s.messageHandlers m.method with
          | none => s
          | some (HandlerSpec.ok result) =>
              if s.ready then responseWriteExec s m.id m.origin result
              else { s with parked := s.parked ++ [Parked.responseWrite m.id m.origin result] }
          | some (HandlerSpec.err msg) => responseErrorWriteExec s m.id m.origin msg
  | MsgKind.notificationMsg =>
      match decryptMsg s.decryptionKeyCache s.selfKey m with
      | none => s
      | some c => { s with decryptionKeyCache := c }
  | MsgKind.broadcast =>
      match decryptMsg s.decryptionKeyCache s.selfKey m with
      | none => s
      | some c => { s with decryptionKeyCache := c }
  | MsgKind.errorMsg =>
      match decryptMsg s.decryptionKeyCache s.selfKey m with
      | none => s
      | some c =>
          let s := { s with decryptionKeyCache := c }
          if s.onErrorActive then { s with errorsFired := s.errorsFired ++ [m.content] } else s

/-- One event's effect on the connection state.  A send invoked before the
barrier releases suspends (`parked`); the handler registrations of
`onRequest`, `onNotification` and `onBroadcast` all write the one shared
`messageHandlers` map. -/
def step (s : ConnState) : Event → ConnState
  | Event.onRequestReg m h => { s with messageHandlers := setKey s.messageHandlers m h }
  | Event.onNotifyReg m h => { s with messageHandlers := setKey s.messageHandlers m h }
  | Event.onBroadcastReg m h => { s with messageHandlers := setKey s.messageHandlers m h }
  | Event.sendRequestCall m t =>
      if s.ready then sendRequestExec s m t
      else { s with parked := s.parked ++ [Parked.requestSend m t] }
  | Event.sendNotifyCall m t =>
      if s.ready then sendNotifyExec s m t
      else { s with parked := s.parked ++ [Parked.notifySend m t] }
  | Event.sendBroadcastCall m =>
      if s.ready then sendBroadcastExec s m
      else { s with parked := s.parked ++ [Parked.broadcastSend m] }
  | Event.readyCall => readyExec s
  | Event.disposeCall => disposeExec s
  | Event.recv m => handleMessage s m
  | Event.timerFire id => timerFireExec s id
  | Event.tick dt => { s with now := s.now + dt }
  | Event.setPeers ps => { s with publicKeys := ps }

/-- The state of a freshly constructed connection: empty registry, empty
request map, `requestId = 1`, empty caches, `maxCacheSize = 50`, barrier
not yet released. -/
def initState : ConnState where
  messageHandlers := []
  requestMap := []
  outcomes := []
  requestId := 1
  encryptionKeyCache := []
  decryptionKeyCache := []
  maxCacheSize := 50
  publicKeys := []
  selfKey := "self"
  ready := false
  parked := []
  wire := []
  sealOps := 0
  onDisconnectActive := true
  onErrorActive := true
  disconnectFired := 0
  errorsFired := []
  transportDisposed := false
  now := 0
  allocatedIds := []

/-- Run a sequence of events from a state. -/
def run (s : ConnState) (evs : List Event) : ConnState :=
  evs.foldl step s

/-! ## Concrete states and traces used to check the claims -/

/-- A reachable connection state with one pending outbound request (id 1,
timer due at 60000 ms), used to check claim C1 at a concrete input. -/
def c1state : ConnState :=
  run initState [Event.setPeers ["a"], Event.readyCall, Event.sendRequestCall "m" "a"]

/-- A reachable connection state whose encryption key cache holds the wrap
for peer `"a"`, used to check claim C2 at a concrete input. -/
def c2state : ConnState :=
  run initState [Event.setPeers ["a"], Event.readyCall, Event.sendBroadcastCall "x"]

/-- 51 inbound broadcasts from 51 distinct senders, each carrying a sealed
key copy for this connection; no peers are known, so the claimed cache
bound is `0 + 50`. -/
def c3events : List Event :=
  (List.range 51).map (fun i => Event.recv ⟨MsgKind.broadcast, 0, "m", "", toString i, ["self"]⟩)

/-- A ready connection with no known peers, used to check claim C4 and the
broadcast-skip of claim C7 at concrete inputs. -/
def c4state : ConnState :=
  run initState [Event.readyCall]

/-- A request arriving before `ready()` whose handler throws. -/
def c5events : List Event :=
  [Event.onRequestReg "m" (HandlerSpec.err "boom"),
   Event.recv ⟨MsgKind.request, 7, "m", "m", "peer1", ["self"]⟩]

/-- A ready connection with no known peers, used to check claim C7 at a
concrete input. -/
def c7state : ConnState :=
  run initState [Event.readyCall]

/-- A ready connection with one pending outbound request (id 1, timer due
at 60000 ms), used to check claim C10 at a concrete input. -/
def c10state : ConnState :=
  run initState [Event.readyCall, Event.sendRequestCall "m" "a"]

/-! ## Association-list and cache lemmas -/

theorem getKey_setKey_self {α β : Type} [DecidableEq α] (l : List (α × β)) (a : α) (b : β) :
    getKey (setKey l a b) a = some b := by
  induction l with
  | nil => simp [setKey, getKey]
  | cons p rest ih =>
    obtain ⟨k, v⟩ := p
    by_cases hk : k = a
    · simp [setKey, getKey, hk]
    · simp [setKey, getKey, hk, ih]

theorem getKey_setKey_isSome {α β : Type} [DecidableEq α] (l : List (α × β)) (a k : α) (b : β)
    (h : (getKey l a).isSome) : (getKey (setKey l k b) a).isSome := by
  induction l with
  | nil => simp [getKey] at h
  | cons p rest ih =>
    obtain ⟨k', v'⟩ := p
    by_cases hk : k' = k
    · subst hk
      by_cases ha : k' = a
      · simp [setKey, getKey, ha]
      · have h' : (getKey rest a).isSome := by simpa [getKey, ha] using h
        simpa [setKey, getKey, ha] using h'
    · by_cases ha : k' = a
      · subst ha
        simp [setKey, getKey, hk]
      · have h' : (getKey rest a).isSome := by simpa [getKey, ha] using h
        simpa [setKey, getKey, hk, ha] using ih h'

theorem getKey_delKey_self {α β : Type} [DecidableEq α] (l : List (α × β)) (a : α) :
    getKey (delKey l a) a = none := by
  induction l with
  | nil => simp [delKey, getKey]
  | cons p rest ih =>
    obtain ⟨k, v⟩ := p
    by_cases hk : k = a
    · simpa [delKey, hk] using ih
    · simpa [delKey, getKey, hk] using ih

theorem getKey_delKey_ne {α β : Type} [DecidableEq α] (l : List (α × β)) (a k : α)
    (h : a ≠ k) : getKey (delKey l k) a = getKey l a := by
  induction l with
  | nil => simp [delKey, getKey]
  | cons p rest ih =>
    obtain ⟨k', v'⟩ := p
    by_cases hk : k' = k
    · have hk'a : ¬ k' = a := fun hc => h (hc ▸ hk)
      simp only [delKey, if_pos hk, getKey, if_neg hk'a, ih]
    · by_cases ha : k' = a
      · simp only [delKey, if_neg hk, getKey, if_pos ha]
      · simp only [delKey, if_neg hk, getKey, if_neg ha, ih]

theorem cacheInsert_length_le (c : Cache) (f : String) :
    (cacheInsert c f).length ≤ c.length + 1 := by
  by_cases h : f ∈ c <;> simp [cacheInsert, h]

theorem encryptFor_singleton (c : Cache) (t : String) :
    encryptFor c [t] = if t ∈ c then (c, 0) else (c ++ [t], 1) := by
  by_cases h : t ∈ c <;> simp [encryptFor, h]

theorem encryptFor_singleton_length (c : Cache) (t : String) :
    (encryptFor c [t]).1.length ≤ c.length + 1 := by
  by_cases h : t ∈ c <;> simp [encryptFor_singleton, h]

theorem encryptFor_mem (c : Cache) (t : String) (h : t ∈ c) :
    encryptFor c [t] = (c, 0) := by
  simp [encryptFor_singleton, h]

/-! ## Generic trace-preservation lemmas -/

theorem foldl_execParked_preserve (P : ConnState → Prop)
    (h : ∀ s p, P s → P (execParked s p)) :
    ∀ (l : List Parked) (s : ConnState), P s → P (l.foldl execParked s) := by
  intro l
  induction l with
  | nil => intro s hs; exact hs
  | cons p tl ih => intro s hs; exact ih _ (h s p hs)

theorem run_preserve (P : ConnState → Prop) :
    ∀ (evs : List Event), (∀ s e, e ∈ evs → P s → P (step s e)) →
    ∀ s, P s → P (run s evs) := by
  intro evs
  induction evs with
  | nil => intro _ s hs; exact hs
  | cons e tl ih =>
    intro hstep s hs
    exact ih (fun s' e' he' hs' => hstep s' e' (List.mem_cons_of_mem _ he') hs') _
      (hstep s e (List.mem_cons_self _ _) hs)

/-! ## Field-preservation lemmas for the message dispatcher -/

theorem getKey_append_single {α β : Type} [DecidableEq α] (l : List (α × β)) (a : α) (b : β)
    (h : getKey l a = none) : getKey (l ++ [(a, b)]) a = some b := by
  induction l with
  | nil => simp [getKey]
  | cons p rest ih =>
    obtain ⟨k, v⟩ := p
    by_cases hk : k = a
    · simp [getKey, hk] at h
    · simp only [getKey, hk, List.cons_append, if_neg hk] at h ⊢
      exact ih h

theorem handleMessage_requestMap (s : ConnState) (m : WireMsg) :
    (handleMessage s m).requestMap = s.requestMap := by
  obtain ⟨k, id, mth, cont, org, rcp⟩ := m
  cases k <;>
    (simp only [handleMessage] <;> split <;> (try split) <;> (try split) <;>
      simp [cleanupCaches, responseWriteExec, responseErrorWriteExec])

theorem handleMessage_now (s : ConnState) (m : WireMsg) :
    (handleMessage s m).now = s.now := by
  obtain ⟨k, id, mth, cont, org, rcp⟩ := m
  cases k <;>
    (simp only [handleMessage] <;> split <;> (try split) <;> (try split) <;>
      simp [cleanupCaches, responseWriteExec, responseErrorWriteExec])

theorem handleMessage_requestId (s : ConnState) (m : WireMsg) :
    (handleMessage s m).requestId = s.requestId := by
  obtain ⟨k, id, mth, cont, org, rcp⟩ := m
  cases k <;>
    (simp only [handleMessage] <;> split <;> (try split) <;> (try split) <;>
      simp [cleanupCaches, responseWriteExec, responseErrorWriteExec])

theorem handleMessage_allocatedIds (s : ConnState) (m : WireMsg) :
    (handleMessage s m).allocatedIds = s.allocatedIds := by
  obtain ⟨k, id, mth, cont, org, rcp⟩ := m
  cases k <;>
    (simp only [handleMessage] <;> split <;> (try split) <;> (try split) <;>
      simp [cleanupCaches, responseWriteExec, responseErrorWriteExec])

theorem handleMessage_ready (s : ConnState) (m : WireMsg) :
    (handleMessage s m).ready = s.ready := by
  obtain ⟨k, id, mth, cont, org, rcp⟩ := m
  cases k <;>
    (simp only [handleMessage] <;> split <;> (try split) <;> (try split) <;>
      simp [cleanupCaches, responseWriteExec, responseErrorWriteExec])

theorem decryptMsg_length {cache : Cache} {sk : String} {m : WireMsg} {c : Cache}
    (h : decryptMsg cache sk m = some c) : c.length ≤ cache.length + 1 := by
  unfold decryptMsg at h
  split at h
  · cases h
    exact cacheInsert_length_le _ _
  · cases h

theorem handleMessage_cache_lengths (s : ConnState) (m : WireMsg) :
    (handleMessage s m).encryptionKeyCache.length
      ≤ (cleanupCaches s).encryptionKeyCache.length + 1 ∧
    (handleMessage s m).decryptionKeyCache.length
      ≤ (cleanupCaches s).decryptionKeyCache.length + 1 := by
  obtain ⟨k, id, mth, cont, org, rcp⟩ := m
  have hdec : ∀ c : Cache,
      decryptMsg (cleanupCaches s).decryptionKeyCache (cleanupCaches s).selfKey
        ⟨k, id, mth, cont, org, rcp⟩ = some c →
      c.length ≤ (cleanupCaches s).decryptionKeyCache.length + 1 :=
    fun _ h => decryptMsg_length h
  cases k <;> simp only [handleMessage] <;> split <;> (try split) <;> (try split) <;>
    constructor <;>
    solve
      | simp
      | exact encryptFor_singleton_length _ _
      | simpa [responseWriteExec, responseErrorWriteExec] using encryptFor_singleton_length _ _
      | (apply hdec; assumption)
      | (simp only [responseWriteExec, responseErrorWriteExec]; apply hdec; assumption)
      | (simp only [responseWriteExec, responseErrorWriteExec]; dsimp only; apply hdec; assumption)

theorem handleMessage_outcomes_unrequested (s : ConnState) (m : WireMsg)
    (hk : m.kind = MsgKind.response) (h : getKey s.requestMap m.id = none) :
    (handleMessage s m).outcomes = s.outcomes := by
  obtain ⟨k, id, mth, cont, org, rcp⟩ := m
  dsimp only at hk h
  subst hk
  simp only [handleMessage]
  split <;> simp [h, cleanupCaches]

theorem timerFireExec_requestId (s : ConnState) (id : Nat) :
    (timerFireExec s id).requestId = s.requestId ∧
    (timerFireExec s id).allocatedIds = s.allocatedIds ∧
    (timerFireExec s id).wire = s.wire ∧
    (timerFireExec s id).ready = s.ready := by
  unfold timerFireExec
  split <;> (try split) <;> simp

theorem sendBroadcastExec_requestMap (s : ConnState) (m : String) :
    (sendBroadcastExec s m).requestMap = s.requestMap := by
  unfold sendBroadcastExec
  split <;> rfl

theorem execParked_requestMap_some (t : ConnState) (p : Parked) (id : Nat)
    (h : getKey t.requestMap id ≠ none) :
    getKey (execParked t p).requestMap id ≠ none := by
  cases p with
  | requestSend mth tgt =>
      exact Option.ne_none_iff_isSome.2
        (getKey_setKey_isSome t.requestMap id t.requestId (t.now + 60000)
          (Option.ne_none_iff_isSome.1 h))
  | notifySend mth tgt => exact h
  | broadcastSend m =>
      rw [show execParked t (Parked.broadcastSend m) = sendBroadcastExec t m from rfl,
        sendBroadcastExec_requestMap]
      exact h
  | responseWrite id' org res => exact h

theorem requestMap_removed_only_by_timer (s : ConnState) (e : Event) (id : Nat)
    (hsome : getKey s.requestMap id ≠ none)
    (hnone : getKey (step s e).requestMap id = none) :
    e = Event.timerFire id := by
  cases e with
  | onRequestReg mth h => exact absurd hnone hsome
  | onNotifyReg mth h => exact absurd hnone hsome
  | onBroadcastReg mth h => exact absurd hnone hsome
  | sendRequestCall mth tgt =>
      exfalso
      by_cases hr : s.ready
      · simp only [step, if_pos hr] at hnone
        exact execParked_requestMap_some s (Parked.requestSend mth tgt) id hsome hnone
      · simp only [step, if_neg hr] at hnone
        exact hsome hnone
  | sendNotifyCall mth tgt =>
      exfalso
      by_cases hr : s.ready
      · simp only [step, if_pos hr] at hnone
        exact hsome hnone
      · simp only [step, if_neg hr] at hnone
        exact hsome hnone
  | sendBroadcastCall mth =>
      exfalso
      by_cases hr : s.ready
      · simp only [step, if_pos hr] at hnone
        rw [sendBroadcastExec_requestMap] at hnone
        exact hsome hnone
      · simp only [step, if_neg hr] at hnone
        exact hsome hnone
  | readyCall =>
      exfalso
      exact (foldl_execParked_preserve (fun t => getKey t.requestMap id ≠ none)
        (fun t p ht => execParked_requestMap_some t p id ht) s.parked
        { s with ready := true, parked := [] } hsome) hnone
  | disposeCall => exact absurd hnone hsome
  | recv m =>
      exfalso
      rw [show step s (Event.recv m) = handleMessage s m from rfl,
        handleMessage_requestMap] at hnone
      exact hsome hnone
  | timerFire id' =>
      by_cases hid : id' = id
      · subst hid
        rfl
      · exfalso
        simp only [step, timerFireExec] at hnone
        rcases hmatch : getKey s.requestMap id' with _ | exp'
        · rw [hmatch] at hnone
          exact hsome hnone
        · rw [hmatch] at hnone
          dsimp only at hnone
          by_cases hle : exp' ≤ s.now
          · rw [if_pos hle] at hnone
            dsimp only at hnone
            rw [getKey_delKey_ne _ _ _ (fun hc => hid hc.symm)] at hnone
            exact hsome hnone
          · rw [if_neg hle] at hnone
            exact hsome hnone
  | tick dt => exact absurd hnone hsome
  | setPeers ps => exact absurd hnone hsome

theorem handleMessage_wire_shape (s : ConnState) (m : WireMsg) :
    (handleMessage s m).wire = s.wire ∨
    (s.ready = true ∧ ∃ id org res,
      (handleMessage s m).wire = s.wire ++ [⟨MsgKind.response, id, "", res, "", [org]⟩]) ∨
    (∃ id org msg,
      (handleMessage s m).wire = s.wire ++ [⟨MsgKind.responseError, id, "", msg, "", [org]⟩]) := by
  obtain ⟨k, id, mth, cont, org, rcp⟩ := m
  cases k <;> simp only [handleMessage] <;> split <;> (try split) <;> (try split) <;>
    solve
      | exact Or.inl rfl
      | exact Or.inr (Or.inl ⟨by assumption, id, org, _, rfl⟩)
      | exact Or.inr (Or.inr ⟨id, org, _, rfl⟩)

theorem execParked_wire_recipients (s : ConnState) (p : Parked)
    (hQ : ∀ w ∈ s.wire, w.recipients ≠ []) :
    ∀ w ∈ (execParked s p).wire, w.recipients ≠ [] := by
  cases p with
  | requestSend mth tgt =>
      intro w hw
      simp only [execParked, sendRequestExec] at hw
      rcases List.mem_append.1 hw with h | h
      · exact hQ w h
      · simp only [List.mem_singleton] at h
        subst h
        simp
  | notifySend mth tgt =>
      intro w hw
      simp only [execParked, sendNotifyExec] at hw
      rcases List.mem_append.1 hw with h | h
      · exact hQ w h
      · simp only [List.mem_singleton] at h
        subst h
        simp
  | broadcastSend mth =>
      intro w hw
      simp only [execParked, sendBroadcastExec] at hw
      by_cases hlen : s.publicKeys.length > 0
      · rw [if_pos hlen] at hw
        dsimp only at hw
        rcases List.mem_append.1 hw with h | h
        · exact hQ w h
        · simp only [List.mem_singleton] at h
          subst h
          exact List.length_pos.mp hlen
      · rw [if_neg hlen] at hw
        exact hQ w hw
  | responseWrite id org res =>
      intro w hw
      simp only [execParked, responseWriteExec] at hw
      rcases List.mem_append.1 hw with h | h
      · exact hQ w h
      · simp only [List.mem_singleton] at h
        subst h
        simp

theorem step_wire_recipients (s : ConnState) (e : Event)
    (hQ : ∀ w ∈ s.wire, w.recipients ≠ []) :
    ∀ w ∈ (step s e).wire, w.recipients ≠ [] := by
  cases e with
  | onRequestReg mth h => exact hQ
  | onNotifyReg mth h => exact hQ
  | onBroadcastReg mth h => exact hQ
  | sendRequestCall mth tgt =>
      by_cases hr : s.ready
      · intro w hw
        simp only [step, if_pos hr] at hw
        exact execParked_wire_recipients s (Parked.requestSend mth tgt) hQ w hw
      · intro w hw
        simp only [step, if_neg hr] at hw
        exact hQ w hw
  | sendNotifyCall mth tgt =>
      by_cases hr : s.ready
      · intro w hw
        simp only [step, if_pos hr] at hw
        exact execParked_wire_recipients s (Parked.notifySend mth tgt) hQ w hw
      · intro w hw
        simp only [step, if_neg hr] at hw
        exact hQ w hw
  | sendBroadcastCall mth =>
      by_cases hr : s.ready
      · intro w hw
        simp only [step, if_pos hr] at hw
        exact execParked_wire_recipients s (Parked.broadcastSend mth) hQ w hw
      · intro w hw
        simp only [step, if_neg hr] at hw
        exact hQ w hw
  | readyCall =>
      exact foldl_execParked_preserve (fun t => ∀ w ∈ t.wire, w.recipients ≠ [])
        (fun t p ht => execParked_wire_recipients t p ht) s.parked
        { s with ready := true, parked := [] } hQ
  | disposeCall => exact hQ
  | recv m =>
      intro w hw
      rw [show step s (Event.recv m) = handleMessage s m from rfl] at hw
      rcases handleMessage_wire_shape s m with hsh | ⟨_, id, org, res, hsh⟩ | ⟨id, org, msg, hsh⟩ <;>
        rw [hsh] at hw
      · exact hQ w hw
      · rcases List.mem_append.1 hw with h | h
        · exact hQ w h
        · simp only [List.mem_singleton] at h
          subst h
          simp
      · rcases List.mem_append.1 hw with h | h
        · exact hQ w h
        · simp only [List.mem_singleton] at h
          subst h
          simp
  | timerFire id =>
      intro w hw
      rw [show step s (Event.timerFire id) = timerFireExec s id from rfl,
        (timerFireExec_requestId s id).2.2.1] at hw
      exact hQ w hw
  | tick dt => exact hQ
  | setPeers ps => exact hQ

theorem execParked_ids (t : ConnState) (p : Parked)
    (ht : List.Pairwise (· < ·) t.allocatedIds ∧ ∀ i ∈ t.allocatedIds, i < t.requestId) :
    List.Pairwise (· < ·) (execParked t p).allocatedIds ∧
    ∀ i ∈ (execParked t p).allocatedIds, i < (execParked t p).requestId := by
  obtain ⟨hpw, hbd⟩ := ht
  cases p with
  | requestSend mth tgt =>
      constructor
      · show List.Pairwise (· < ·) (t.allocatedIds ++ [t.requestId])
        refine List.pairwise_append.2 ⟨hpw, by simp, ?_⟩
        intro a ha b hb
        simp only [List.mem_singleton] at hb
        subst hb
        exact hbd a ha
      · intro i hi
        simp only [execParked, sendRequestExec] at hi ⊢
        rcases List.mem_append.1 hi with h | h
        · exact Nat.lt_succ_of_lt (hbd i h)
        · simp only [List.mem_singleton] at h
          subst h
          exact Nat.lt_succ_self _
  | notifySend mth tgt => exact ⟨hpw, hbd⟩
  | broadcastSend mth =>
      constructor
      · show List.Pairwise (· < ·) (sendBroadcastExec t mth).allocatedIds
        unfold sendBroadcastExec
        split <;> exact hpw
      · show ∀ i ∈ (sendBroadcastExec t mth).allocatedIds, i < (sendBroadcastExec t mth).requestId
        unfold sendBroadcastExec
        split <;> exact hbd
  | responseWrite id org res => exact ⟨hpw, hbd⟩

theorem step_ids (t : ConnState) (e : Event)
    (ht : List.Pairwise (· < ·) t.allocatedIds ∧ ∀ i ∈ t.allocatedIds, i < t.requestId) :
    List.Pairwise (· < ·) (step t e).allocatedIds ∧
    ∀ i ∈ (step t e).allocatedIds, i < (step t e).requestId := by
  cases e with
  | onRequestReg mth h => exact ht
  | onNotifyReg mth h => exact ht
  | onBroadcastReg mth h => exact ht
  | sendRequestCall mth tgt =>
      by_cases hr : t.ready
      · simp only [step, if_pos hr]
        exact execParked_ids t (Parked.requestSend mth tgt) ht
      · simp only [step, if_neg hr]
        exact ht
  | sendNotifyCall mth tgt =>
      by_cases hr : t.ready
      · simp only [step, if_pos hr]
        exact execParked_ids t (Parked.notifySend mth tgt) ht
      · simp only [step, if_neg hr]
        exact ht
  | sendBroadcastCall mth =>
      by_cases hr : t.ready
      · simp only [step, if_pos hr]
        exact execParked_ids t (Parked.broadcastSend mth) ht
      · simp only [step, if_neg hr]
        exact ht
  | readyCall =>
      exact foldl_execParked_preserve
        (fun u => List.Pairwise (· < ·) u.allocatedIds ∧ ∀ i ∈ u.allocatedIds, i < u.requestId)
        (fun u p hu => execParked_ids u p hu) t.parked
        { t with ready := true, parked := [] } ht
  | disposeCall => exact ht
  | recv m =>
      constructor
      · rw [show step t (Event.recv m) = handleMessage t m from rfl, handleMessage_allocatedIds]
        exact ht.1
      · intro i hi
        rw [show step t (Event.recv m) = handleMessage t m from rfl,
          handleMessage_allocatedIds] at hi
        rw [show step t (Event.recv m) = handleMessage t m from rfl, handleMessage_requestId]
        exact ht.2 i hi
  | timerFire id =>
      constructor
      · rw [show step t (Event.timerFire id) = timerFireExec t id from rfl,
          (timerFireExec_requestId t id).2.1]
        exact ht.1
      · intro i hi
        rw [show step t (Event.timerFire id) = timerFireExec t id from rfl,
          (timerFireExec_requestId t id).2.1] at hi
        rw [show step t (Event.timerFire id) = timerFireExec t id from rfl,
          (timerFireExec_requestId t id).1]
        exact ht.2 i hi
  | tick dt => exact ht
  | setPeers ps => exact ht

/-! ## Claim C1 — dispose() -/

/-- Claim C1, counterexample: `dispose()` does not reject pending requests.
On a connection with one pending request, after `dispose()` the request is
still in the request map and its deferred is still unsettled — no rejection
with Disconnected (nor any other settlement) took place. -/
theorem c1_counterexample :
    (step c1state Event.disposeCall).outcomes = [] ∧
    (step c1state Event.disposeCall).requestMap = [(1, 60000)] := by
  constructor <;> decide

/-- Claim C1 (amended): `dispose()` fires `onDisconnect`, clears the
handler registry and disposes the transport, and calling it again has no
further effect; but it leaves the outbound request map and every pending
request's deferred untouched — pending requests are not rejected. -/
theorem c1_dispose (s : ConnState) (hAct : s.onDisconnectActive = true) :
    (step s Event.disposeCall).disconnectFired = s.disconnectFired + 1 ∧
    (step s Event.disposeCall).messageHandlers = [] ∧
    (step s Event.disposeCall).transportDisposed = true ∧
    (step s Event.disposeCall).requestMap = s.requestMap ∧
    (step s Event.disposeCall).outcomes = s.outcomes ∧
    step (step s Event.disposeCall) Event.disposeCall = step s Event.disposeCall := by
  refine ⟨?_, rfl, rfl, rfl, rfl, ?_⟩
  · simp [step, disposeExec, hAct]
  · simp [step, disposeExec]

/-- Claim C1, witness: the amended dispose behaviour checked on a concrete
connection holding one pending request. -/
theorem c1_dispose_witness :
    c1state.onDisconnectActive = true ∧
    ((step c1state Event.disposeCall).disconnectFired = c1state.disconnectFired + 1 ∧
     (step c1state Event.disposeCall).messageHandlers = [] ∧
     (step c1state Event.disposeCall).transportDisposed = true ∧
     (step c1state Event.disposeCall).requestMap = c1state.requestMap ∧
     (step c1state Event.disposeCall).outcomes = c1state.outcomes ∧
     step (step c1state Event.disposeCall) Event.disposeCall = step c1state Event.disposeCall) :=
  ⟨by decide, c1_dispose c1state (by decide)⟩

/-! ## Claim C2 — caches on peer-set change -/

/-- Claim C2, counterexample: a change of the known-peer set does not drop
the caches.  After a broadcast to the single peer `"a"` cached its wrap, a
second peer joins; the encryption key cache still holds `"a"` (it was not
dropped), and the next broadcast performs only one fresh asymmetric seal
(for `"b"`) — the wrap for `"a"` is served from the cache, not re-derived. -/
theorem c2_counterexample :
    (run initState [Event.setPeers ["a"], Event.readyCall, Event.sendBroadcastCall "x",
        Event.setPeers ["a", "b"]]).encryptionKeyCache = ["a"] ∧
    (run initState [Event.setPeers ["a"], Event.readyCall, Event.sendBroadcastCall "x",
        Event.setPeers ["a", "b"], Event.sendBroadcastCall "x"]).sealOps = 2 := by
  constructor <;> decide

/-- Claim C2 (amended): a change of the known-peer set leaves both key
caches untouched, and a send after the change whose target is already
cached performs no fresh asymmetric seal — it is served from the cache.
Caches are only ever dropped by the size check of `cleanupCaches`. -/
theorem c2_peer_change_keeps_caches (s : ConnState) (method target : String) (ps : List String)
    (hr : s.ready = true) (hc : target ∈ s.encryptionKeyCache) :
    (step s (Event.setPeers ps)).encryptionKeyCache = s.encryptionKeyCache ∧
    (step s (Event.setPeers ps)).decryptionKeyCache = s.decryptionKeyCache ∧
    (step (step s (Event.setPeers ps)) (Event.sendRequestCall method target)).sealOps = s.sealOps ∧
    (step (step s (Event.setPeers ps)) (Event.sendRequestCall method target)).encryptionKeyCache
      = s.encryptionKeyCache := by
  refine ⟨rfl, rfl, ?_, ?_⟩ <;>
    simp [step, sendRequestExec, encryptFor_mem _ _ hc, hr]

/-- Claim C2, witness: the amended cache-preservation theorem checked on a
concrete connection whose cache holds the wrap for peer `"a"`. -/
theorem c2_peer_change_keeps_caches_witness :
    c2state.ready = true ∧ "a" ∈ c2state.encryptionKeyCache ∧
    ((step c2state (Event.setPeers ["a", "b"])).encryptionKeyCache = c2state.encryptionKeyCache ∧
     (step c2state (Event.setPeers ["a", "b"])).decryptionKeyCache = c2state.decryptionKeyCache ∧
     (step (step c2state (Event.setPeers ["a", "b"])) (Event.sendRequestCall "m" "a")).sealOps
       = c2state.sealOps ∧
     (step (step c2state (Event.setPeers ["a", "b"])) (Event.sendRequestCall "m" "a")).encryptionKeyCache
       = c2state.encryptionKeyCache) :=
  ⟨by decide, by decide, c2_peer_change_keeps_caches c2state "m" "a" ["a", "b"] (by decide) (by decide)⟩

/-! ## Claim C3 — cache size bound (counterexample part) -/

set_option maxRecDepth 100000 in
/-- Claim C3, counterexample: after a sequence of receives the decryption
key cache holds 51 entries while the known-peer set is empty, so the
claimed bound `knownPeerCount + 50 = 50` is exceeded: the overflow check
runs only at the start of handling each message, before the entry added by
that message. -/
theorem c3_counterexample :
    (run initState c3events).publicKeys.length + (run initState c3events).maxCacheSize
      < (run initState c3events).decryptionKeyCache.length ∧
    (run initState c3events).maxCacheSize = 50 := by
  constructor <;> decide

/-! ## Claim C5 — ready barrier (counterexample part) -/

/-- Claim C5, counterexample: a `ResponseError` is written to the transport
before `ready()` was ever called — the catch clause of the request branch
does not await the ready barrier.  The barrier is still down (`ready`
false) yet the wire already carries the error reply. -/
theorem c5_counterexample :
    Event.readyCall ∉ c5events ∧
    (run initState c5events).ready = false ∧
    (run initState c5events).wire =
      [⟨MsgKind.responseError, 7, "", "boom", "", ["peer1"]⟩] := by
  refine ⟨by decide, by decide, by decide⟩

/-! ## Claim C6 — unknown request method is dropped without reply -/

/-- Claim C6: a `Request` whose method has no registered handler is dropped:
nothing is written to the transport, nothing is queued for later sending,
and no deferred settles — neither a `Response` nor a `ResponseError` is
produced. -/
theorem c6_unknown_request_dropped (s : ConnState) (m : WireMsg)
    (hk : m.kind = MsgKind.request)
    (hh : getKey s.messageHandlers m.method = none) :
    (step s (Event.recv m)).wire = s.wire ∧
    (step s (Event.recv m)).parked = s.parked ∧
    (step s (Event.recv m)).outcomes = s.outcomes := by
  obtain ⟨k, id, mth, cont, org, rcp⟩ := m
  dsimp only at hk hh
  subst hk
  simp only [step, handleMessage]
  cases hdec : decryptMsg (cleanupCaches s).decryptionKeyCache (cleanupCaches s).selfKey
      ⟨MsgKind.request, id, mth, cont, org, rcp⟩ with
  | none => exact ⟨rfl, rfl, rfl⟩
  | some c => simp [cleanupCaches, hh]

/-- Claim C6, witness: an unknown-method request checked on the initial
connection state. -/
theorem c6_unknown_request_dropped_witness :
    (⟨MsgKind.request, 3, "nope", "nope", "peer1", ["self"]⟩ : WireMsg).kind = MsgKind.request ∧
    getKey initState.messageHandlers "nope" = none ∧
    ((step initState (Event.recv ⟨MsgKind.request, 3, "nope", "nope", "peer1", ["self"]⟩)).wire
        = initState.wire ∧
     (step initState (Event.recv ⟨MsgKind.request, 3, "nope", "nope", "peer1", ["self"]⟩)).parked
        = initState.parked ∧
     (step initState (Event.recv ⟨MsgKind.request, 3, "nope", "nope", "peer1", ["self"]⟩)).outcomes
        = initState.outcomes) :=
  ⟨rfl, rfl, c6_unknown_request_dropped initState _ rfl rfl⟩

/-! ## Claim C9 — one shared handler registry -/

/-- Claim C9: `onRequest`, `onNotification` and `onBroadcast` are the same
operation on the one shared method-keyed registry: registering a handler
through any of the three produces identical states, and a later
registration for the same method through a different operation displaces
the earlier handler. -/
theorem c9_shared_handler_registry (s : ConnState) (m : String) (h h' : HandlerSpec) :
    step s (Event.onRequestReg m h) = step s (Event.onNotifyReg m h) ∧
    step s (Event.onNotifyReg m h) = step s (Event.onBroadcastReg m h) ∧
    getKey (step (step s (Event.onRequestReg m h)) (Event.onNotifyReg m h')).messageHandlers m
      = some h' := by
  refine ⟨rfl, rfl, ?_⟩
  simp only [step]
  exact getKey_setKey_self _ _ _

/-! ## Claim C3 — cache size bound (amended theorem) -/

/-- Claim C3 (amended): the bound `knownPeerCount + 50` is enforced only by
the cleanup at the start of handling each inbound message: the cleanup
either keeps a cache intact or resets it to empty in its entirety (never
entry by entry), and leaves both caches within the bound; the handling of
the message itself can then add at most one entry per cache, so right after
any receive each cache holds at most `knownPeerCount + 50 + 1` entries.
Sends do not trigger the cleanup at all. -/
theorem c3_cache_bound (s : ConnState) (m : WireMsg) :
    ((cleanupCaches s).encryptionKeyCache = s.encryptionKeyCache ∨
      (cleanupCaches s).encryptionKeyCache = []) ∧
    ((cleanupCaches s).decryptionKeyCache = s.decryptionKeyCache ∨
      (cleanupCaches s).decryptionKeyCache = []) ∧
    (cleanupCaches s).encryptionKeyCache.length ≤ s.publicKeys.length + s.maxCacheSize ∧
    (cleanupCaches s).decryptionKeyCache.length ≤ s.publicKeys.length + s.maxCacheSize ∧
    (step s (Event.recv m)).encryptionKeyCache.length
      ≤ s.publicKeys.length + s.maxCacheSize + 1 ∧
    (step s (Event.recv m)).decryptionKeyCache.length
      ≤ s.publicKeys.length + s.maxCacheSize + 1 := by
  have hencl : (cleanupCaches s).encryptionKeyCache.length
      ≤ s.publicKeys.length + s.maxCacheSize := by
    simp only [cleanupCaches]
    split
    · simp
    · omega
  have hdecl : (cleanupCaches s).decryptionKeyCache.length
      ≤ s.publicKeys.length + s.maxCacheSize := by
    simp only [cleanupCaches]
    split
    · simp
    · omega
  have hlen := handleMessage_cache_lengths s m
  refine ⟨?_, ?_, hencl, hdecl, ?_, ?_⟩
  · simp only [cleanupCaches]
    split
    · right; rfl
    · left; rfl
  · simp only [cleanupCaches]
    split
    · right; rfl
    · left; rfl
  · exact le_trans hlen.1 (by omega)
  · exact le_trans hlen.2 (by omega)

/-! ## Claim C4 — request timeout -/

/-- Claim C4: a request whose response has not arrived fails with the
timeout error when its 60 s timer fires.  `sendRequest` stores the id with
deadline `now + 60000`; once at least 60 s have passed the timer fires,
removing the id from the request map and rejecting the deferred with the
timeout error; a `Response` carrying that id arriving afterwards settles
nothing and leaves the request map unchanged — it is dropped. -/
theorem c4_request_timeout (s : ConnState) (method target : String) (dt : Nat) (resp : WireMsg)
    (hr : s.ready = true)
    (hfresh : getKey s.outcomes s.requestId = none)
    (hdt : 60000 ≤ dt)
    (hrk : resp.kind = MsgKind.response)
    (hrid : resp.id = s.requestId) :
    getKey (step s (Event.sendRequestCall method target)).requestMap s.requestId
      = some (s.now + 60000) ∧
    getKey (step (step (step s (Event.sendRequestCall method target)) (Event.tick dt))
        (Event.timerFire s.requestId)).requestMap s.requestId = none ∧
    getKey (step (step (step s (Event.sendRequestCall method target)) (Event.tick dt))
        (Event.timerFire s.requestId)).outcomes s.requestId
      = some (Except.error RpcErr.timeout) ∧
    (step (step (step (step s (Event.sendRequestCall method target)) (Event.tick dt))
        (Event.timerFire s.requestId)) (Event.recv resp)).requestMap
      = (step (step (step s (Event.sendRequestCall method target)) (Event.tick dt))
          (Event.timerFire s.requestId)).requestMap ∧
    (step (step (step (step s (Event.sendRequestCall method target)) (Event.tick dt))
        (Event.timerFire s.requestId)) (Event.recv resp)).outcomes
      = (step (step (step s (Event.sendRequestCall method target)) (Event.tick dt))
          (Event.timerFire s.requestId)).outcomes := by
  have h2 : getKey (step (step (step s (Event.sendRequestCall method target)) (Event.tick dt))
      (Event.timerFire s.requestId)).requestMap s.requestId = none := by
    simp [step, hr, sendRequestExec, timerFireExec, getKey_setKey_self, getKey_delKey_self, hdt]
  refine ⟨?_, h2, ?_, handleMessage_requestMap _ resp,
    handleMessage_outcomes_unrequested _ resp hrk (by rw [hrid]; exact h2)⟩
  · simp [step, hr, sendRequestExec, getKey_setKey_self]
  · simp [step, hr, sendRequestExec, timerFireExec, getKey_setKey_self, hdt, settleOutcome,
      hfresh, getKey_append_single _ _ _ hfresh]

/-- Claim C4, witness: the timeout behaviour checked on a concrete ready
connection issuing request id 1 and receiving a late response. -/
theorem c4_request_timeout_witness :
    c4state.ready = true ∧
    getKey c4state.outcomes c4state.requestId = none ∧
    60000 ≤ 60000 ∧
    (⟨MsgKind.response, 1, "", "late", "a", ["self"]⟩ : WireMsg).kind = MsgKind.response ∧
    (⟨MsgKind.response, 1, "", "late", "a", ["self"]⟩ : WireMsg).id = c4state.requestId ∧
    (getKey (step c4state (Event.sendRequestCall "m" "a")).requestMap c4state.requestId
       = some (c4state.now + 60000) ∧
     getKey (step (step (step c4state (Event.sendRequestCall "m" "a")) (Event.tick 60000))
         (Event.timerFire c4state.requestId)).requestMap c4state.requestId = none ∧
     getKey (step (step (step c4state (Event.sendRequestCall "m" "a")) (Event.tick 60000))
         (Event.timerFire c4state.requestId)).outcomes c4state.requestId
       = some (Except.error RpcErr.timeout) ∧
     (step (step (step (step c4state (Event.sendRequestCall "m" "a")) (Event.tick 60000))
         (Event.timerFire c4state.requestId))
         (Event.recv ⟨MsgKind.response, 1, "", "late", "a", ["self"]⟩)).requestMap
       = (step (step (step c4state (Event.sendRequestCall "m" "a")) (Event.tick 60000))
           (Event.timerFire c4state.requestId)).requestMap ∧
     (step (step (step (step c4state (Event.sendRequestCall "m" "a")) (Event.tick 60000))
         (Event.timerFire c4state.requestId))
         (Event.recv ⟨MsgKind.response, 1, "", "late", "a", ["self"]⟩)).outcomes
       = (step (step (step c4state (Event.sendRequestCall "m" "a")) (Event.tick 60000))
           (Event.timerFire c4state.requestId)).outcomes) :=
  ⟨by decide, by decide, by decide, by decide, by decide,
    c4_request_timeout c4state "m" "a" 60000 ⟨MsgKind.response, 1, "", "late", "a", ["self"]⟩
      (by decide) (by decide) (by decide) (by decide) (by decide)⟩

/-! ## Claim C5 — ready barrier (amended theorem) -/

/-- Claim C5 (amended): before `ready()` is called, the three send
operations and the `Response` of an inbound request write nothing — they
suspend on the barrier — so the only messages that can appear on the
transport before the barrier releases are the `ResponseError` replies of
failing request handlers, whose catch clause does not await the barrier. -/
theorem c5_no_output_before_ready (evs : List Event) (hnr : Event.readyCall ∉ evs) :
    (run initState evs).ready = false ∧
    ∀ w ∈ (run initState evs).wire, w.kind = MsgKind.responseError := by
  refine run_preserve
    (fun t => t.ready = false ∧ ∀ w ∈ t.wire, w.kind = MsgKind.responseError)
    evs ?_ initState ⟨rfl, by intro w hw; simp [initState] at hw⟩
  intro t e he ht
  obtain ⟨hrf, hwire⟩ := ht
  cases e with
  | onRequestReg mth h => exact ⟨hrf, hwire⟩
  | onNotifyReg mth h => exact ⟨hrf, hwire⟩
  | onBroadcastReg mth h => exact ⟨hrf, hwire⟩
  | sendRequestCall mth tgt =>
      have hr : ¬ t.ready = true := by simp [hrf]
      constructor
      · simp only [step, if_neg hr]
        exact hrf
      · intro w hw
        simp only [step, if_neg hr] at hw
        exact hwire w hw
  | sendNotifyCall mth tgt =>
      have hr : ¬ t.ready = true := by simp [hrf]
      constructor
      · simp only [step, if_neg hr]
        exact hrf
      · intro w hw
        simp only [step, if_neg hr] at hw
        exact hwire w hw
  | sendBroadcastCall mth =>
      have hr : ¬ t.ready = true := by simp [hrf]
      constructor
      · simp only [step, if_neg hr]
        exact hrf
      · intro w hw
        simp only [step, if_neg hr] at hw
        exact hwire w hw
  | readyCall => exact absurd he hnr
  | disposeCall => exact ⟨hrf, hwire⟩
  | recv m =>
      constructor
      · rw [show step t (Event.recv m) = handleMessage t m from rfl, handleMessage_ready]
        exact hrf
      · intro w hw
        rw [show step t (Event.recv m) = handleMessage t m from rfl] at hw
        rcases handleMessage_wire_shape t m with hsh | ⟨hrt, _⟩ | ⟨id, org, msg, hsh⟩
        · rw [hsh] at hw
          exact hwire w hw
        · rw [hrt] at hrf
          cases hrf
        · rw [hsh] at hw
          rcases List.mem_append.1 hw with h | h
          · exact hwire w h
          · simp only [List.mem_singleton] at h
            subst h
            rfl
  | timerFire id =>
      constructor
      · rw [show step t (Event.timerFire id) = timerFireExec t id from rfl,
          (timerFireExec_requestId t id).2.2.2]
        exact hrf
      · intro w hw
        rw [show step t (Event.timerFire id) = timerFireExec t id from rfl,
          (timerFireExec_requestId t id).2.2.1] at hw
        exact hwire w hw
  | tick dt => exact ⟨hrf, hwire⟩
  | setPeers ps => exact ⟨hrf, hwire⟩

/-- Claim C5, witness: the amended barrier theorem checked on a concrete
trace that registers a handler but never calls `ready()`. -/
theorem c5_no_output_before_ready_witness :
    Event.readyCall ∉ [Event.onRequestReg "a" (HandlerSpec.ok "r")] ∧
    ((run initState [Event.onRequestReg "a" (HandlerSpec.ok "r")]).ready = false ∧
     ∀ w ∈ (run initState [Event.onRequestReg "a" (HandlerSpec.ok "r")]).wire,
       w.kind = MsgKind.responseError) :=
  ⟨by decide, c5_no_output_before_ready [Event.onRequestReg "a" (HandlerSpec.ok "r")] (by decide)⟩

/-! ## Claim C7 — empty broadcast is skipped; every sent message has a wrap -/

/-- Claim C7: a broadcast executed while the known-peer set is empty leaves
the connection state — in particular the transport — completely unchanged,
and along any trace every message written to the transport carries at least
one sealed key copy, so the zero-recipient encryption failure can never be
reached by a written message. -/
theorem c7_empty_broadcast_skipped (s : ConnState) (method : String) (evs : List Event)
    (hr : s.ready = true) (hp : s.publicKeys = []) :
    step s (Event.sendBroadcastCall method) = s ∧
    ∀ w ∈ (run initState evs).wire, w.recipients ≠ [] := by
  constructor
  · simp [step, hr, sendBroadcastExec, hp]
  · exact run_preserve (fun t => ∀ w ∈ t.wire, w.recipients ≠ []) evs
      (fun t e _ ht => step_wire_recipients t e ht) initState
      (by intro w hw; simp [initState] at hw)

/-- Claim C7, witness: the broadcast-skip checked on a concrete ready
connection with no peers, and the wrap invariant on a trace that attempts
such a broadcast. -/
theorem c7_empty_broadcast_skipped_witness :
    c7state.ready = true ∧ c7state.publicKeys = [] ∧
    (step c7state (Event.sendBroadcastCall "x") = c7state ∧
     ∀ w ∈ (run initState [Event.readyCall, Event.sendBroadcastCall "x"]).wire,
       w.recipients ≠ []) :=
  ⟨by decide, by decide,
    c7_empty_broadcast_skipped c7state "x" [Event.readyCall, Event.sendBroadcastCall "x"]
      (by decide) (by decide)⟩

/-! ## Claim C8 — request ids strictly increase -/

/-- Claim C8: along any event trace, the ids allocated by `sendRequest` (in
allocation order) are pairwise strictly increasing — each allocation is the
atomic `this.requestId++`, so every id is strictly greater than all ids
allocated before it and no id is ever repeated. -/
theorem c8_request_ids_monotone (evs : List Event) :
    List.Pairwise (· < ·) (run initState evs).allocatedIds ∧
    (run initState evs).allocatedIds.Nodup := by
  have main : List.Pairwise (· < ·) (run initState evs).allocatedIds ∧
      ∀ i ∈ (run initState evs).allocatedIds, i < (run initState evs).requestId :=
    run_preserve
      (fun t => List.Pairwise (· < ·) t.allocatedIds ∧ ∀ i ∈ t.allocatedIds, i < t.requestId)
      evs (fun t e _ ht => step_ids t e ht) initState (by simp [initState])
  exact ⟨main.1, main.1.imp (fun hab => Nat.ne_of_lt hab)⟩

/-! ## Claim C10 — the request-map entry outlives an early response -/

/-- Claim C10: a `Response` (or `ResponseError`) arriving while the request
is pending settles the request's deferred but leaves the map entry and its
timer untouched; an entry is removed from the request map only by its own
timer firing; and when the timer then fires after the response, the id is
removed but the late rejection of the already-settled deferred changes
nothing — the deferred keeps the response's value. -/
theorem c10_entry_persists (s : ConnState) (resp : WireMsg) (exp : Nat)
    (hk : resp.kind = MsgKind.response)
    (hmap : getKey s.requestMap resp.id = some exp)
    (hun : getKey s.outcomes resp.id = none)
    (hdec : s.selfKey ∈ resp.recipients) :
    getKey (step s (Event.recv resp)).outcomes resp.id = some (Except.ok resp.content) ∧
    getKey (step s (Event.recv resp)).requestMap resp.id = some exp ∧
    getKey (step s (Event.recv { resp with kind := MsgKind.responseError })).outcomes resp.id
      = some (Except.error (RpcErr.remote resp.content)) ∧
    getKey (step s (Event.recv { resp with kind := MsgKind.responseError })).requestMap resp.id
      = some exp ∧
    (∀ (e : Event) (id : Nat), getKey s.requestMap id ≠ none →
        getKey (step s e).requestMap id = none → e = Event.timerFire id) ∧
    (∀ dt : Nat, exp ≤ s.now + dt →
      getKey (step (step (step s (Event.recv resp)) (Event.tick dt))
          (Event.timerFire resp.id)).requestMap resp.id = none ∧
      getKey (step (step (step s (Event.recv resp)) (Event.tick dt))
          (Event.timerFire resp.id)).outcomes resp.id = some (Except.ok resp.content)) := by
  obtain ⟨k, id, mth, cont, org, rcp⟩ := resp
  dsimp only at hk hmap hun hdec ⊢
  subst hk
  have hout : (handleMessage s ⟨MsgKind.response, id, mth, cont, org, rcp⟩).outcomes
      = s.outcomes ++ [(id, Except.ok cont)] := by
    simp [handleMessage, cleanupCaches, decryptMsg, hdec, hmap, settleOutcome, hun]
  have hout' : (handleMessage s ⟨MsgKind.responseError, id, mth, cont, org, rcp⟩).outcomes
      = s.outcomes ++ [(id, Except.error (RpcErr.remote cont))] := by
    simp [handleMessage, cleanupCaches, decryptMsg, hdec, hmap, settleOutcome, hun]
  have hrm : (handleMessage s ⟨MsgKind.response, id, mth, cont, org, rcp⟩).requestMap
      = s.requestMap := handleMessage_requestMap _ _
  have hrm' : (handleMessage s ⟨MsgKind.responseError, id, mth, cont, org, rcp⟩).requestMap
      = s.requestMap := handleMessage_requestMap _ _
  have hnow : (handleMessage s ⟨MsgKind.response, id, mth, cont, org, rcp⟩).now
      = s.now := handleMessage_now _ _
  refine ⟨?_, ?_, ?_, ?_, ?_, ?_⟩
  · show getKey (handleMessage s ⟨MsgKind.response, id, mth, cont, org, rcp⟩).outcomes id
      = some (Except.ok cont)
    rw [hout]
    exact getKey_append_single _ _ _ hun
  · show getKey (handleMessage s ⟨MsgKind.response, id, mth, cont, org, rcp⟩).requestMap id
      = some exp
    rw [hrm]
    exact hmap
  · show getKey (handleMessage s ⟨MsgKind.responseError, id, mth, cont, org, rcp⟩).outcomes id
      = some (Except.error (RpcErr.remote cont))
    rw [hout']
    exact getKey_append_single _ _ _ hun
  · show getKey (handleMessage s ⟨MsgKind.responseError, id, mth, cont, org, rcp⟩).requestMap id
      = some exp
    rw [hrm']
    exact hmap
  · exact fun e i h1 h2 => requestMap_removed_only_by_timer s e i h1 h2
  · intro dt hdt
    constructor
    · show getKey (timerFireExec
          { handleMessage s ⟨MsgKind.response, id, mth, cont, org, rcp⟩ with
            now := (handleMessage s ⟨MsgKind.response, id, mth, cont, org, rcp⟩).now + dt }
          id).requestMap id = none
      simp [timerFireExec, hrm, hmap, hnow, hdt, getKey_delKey_self]
    · show getKey (timerFireExec
          { handleMessage s ⟨MsgKind.response, id, mth, cont, org, rcp⟩ with
            now := (handleMessage s ⟨MsgKind.response, id, mth, cont, org, rcp⟩).now + dt }
          id).outcomes id = some (Except.ok cont)
      simp [timerFireExec, hrm, hmap, hnow, hdt, settleOutcome, hout,
        getKey_append_single _ _ _ hun]

/-- Claim C10, witness: the persistence of the entry and the no-op late
timer rejection checked on a concrete ready connection with request id 1
pending and a response arriving first. -/
theorem c10_entry_persists_witness :
    (⟨MsgKind.response, 1, "", "res", "a", ["self"]⟩ : WireMsg).kind = MsgKind.response ∧
    getKey c10state.requestMap (⟨MsgKind.response, 1, "", "res", "a", ["self"]⟩ : WireMsg).id
      = some 60000 ∧
    getKey c10state.outcomes (⟨MsgKind.response, 1, "", "res", "a", ["self"]⟩ : WireMsg).id
      = none ∧
    c10state.selfKey ∈ (⟨MsgKind.response, 1, "", "res", "a", ["self"]⟩ : WireMsg).recipients ∧
    (getKey (step c10state (Event.recv ⟨MsgKind.response, 1, "", "res", "a", ["self"]⟩)).outcomes
        (⟨MsgKind.response, 1, "", "res", "a", ["self"]⟩ : WireMsg).id
      = some (Except.ok (⟨MsgKind.response, 1, "", "res", "a", ["self"]⟩ : WireMsg).content) ∧
     getKey (step c10state (Event.recv ⟨MsgKind.response, 1, "", "res", "a", ["self"]⟩)).requestMap
        (⟨MsgKind.response, 1, "", "res", "a", ["self"]⟩ : WireMsg).id = some 60000 ∧
     getKey (step c10state (Event.recv
          { (⟨MsgKind.response, 1, "", "res", "a", ["self"]⟩ : WireMsg) with
            kind := MsgKind.responseError })).outcomes
        (⟨MsgKind.response, 1, "", "res", "a", ["self"]⟩ : WireMsg).id
      = some (Except.error
          (RpcErr.remote (⟨MsgKind.response, 1, "", "res", "a", ["self"]⟩ : WireMsg).content)) ∧
     getKey (step c10state (Event.recv
          { (⟨MsgKind.response, 1, "", "res", "a", ["self"]⟩ : WireMsg) with
            kind := MsgKind.responseError })).requestMap
        (⟨MsgKind.response, 1, "", "res", "a", ["self"]⟩ : WireMsg).id = some 60000 ∧
     (∀ (e : Event) (i : Nat), getKey c10state.requestMap i ≠ none →
        getKey (step c10state e).requestMap i = none → e = Event.timerFire i) ∧
     (∀ dt : Nat, 60000 ≤ c10state.now + dt →
       getKey (step (step (step c10state
             (Event.recv ⟨MsgKind.response, 1, "", "res", "a", ["self"]⟩)) (Event.tick dt))
           (Event.timerFire (⟨MsgKind.response, 1, "", "res", "a", ["self"]⟩ : WireMsg).id)).requestMap
         (⟨MsgKind.response, 1, "", "res", "a", ["self"]⟩ : WireMsg).id = none ∧
       getKey (step (step (step c10state
             (Event.recv ⟨MsgKind.response, 1, "", "res", "a", ["self"]⟩)) (Event.tick dt))
           (Event.timerFire (⟨MsgKind.response, 1, "", "res", "a", ["self"]⟩ : WireMsg).id)).outcomes
         (⟨MsgKind.response, 1, "", "res", "a", ["self"]⟩ : WireMsg).id
       = some (Except.ok (⟨MsgKind.response, 1, "", "res", "a", ["self"]⟩ : WireMsg).content))) :=
  ⟨by decide, by decide, by decide, by decide,
    c10_entry_persists c10state ⟨MsgKind.response, 1, "", "res", "a", ["self"]⟩ 60000
      (by decide) (by decide) (by decide) (by decide)⟩

end OCP
